import Mathlib

/-!
Verification of the html2pdf-serverless render-and-assemble pipeline.

This file gives a shallow embedding, in Lean 4, of the pipeline implemented
in `src/app.ts` / the font-enabled application file and `src/schemas.ts`:
request validation, the font resolver, the HTML preprocessor, the page
renderer's request-admission policy and error classification, the batch
scheduler (chunked windows), and the top-level error handler.  Effectful
steps (network fetch, rendering) are embedded by passing their outcomes
explicitly; machine behaviour that matters (JavaScript string truthiness,
`Math.min`, `Array.prototype.includes`, regex matching of the two patterns
used by `injectFontCSS`) is modelled directly over `Nat` / `List Char`.
-/

namespace Html2Pdf

/-! ## JavaScript string helpers

`seqLeads needle hay` holds when `needle` occurs at the very start of
`hay`; `seqContains hay needle` models `String.prototype.includes`. -/

def seqLeads : List Char → List Char → Bool
  | [], _ => true
  | _ :: _, [] => false
  | a :: as, b :: bs => a = b && seqLeads as bs

def seqContains (hay needle : List Char) : Bool :=
  if seqLeads needle hay then true
  else
    match hay with
    | [] => false
    | _ :: t => seqContains t needle

/-- `strIncludes s sub` models JavaScript `s.includes(sub)`. -/
def strIncludes (s sub : String) : Bool :=
  seqContains s.data sub.data

theorem seqLeads_append (n t : List Char) : seqLeads n (n ++ t) = true := by
  induction n with
  | nil => rfl
  | cons a as ih => simp [seqLeads, ih]

theorem seqContains_of_leads {hay needle : List Char}
    (h : seqLeads needle hay = true) : seqContains hay needle = true := by
  unfold seqContains
  simp [h]

theorem seqContains_cons {t needle : List Char} (a : Char)
    (h : seqContains t needle = true) : seqContains (a :: t) needle = true := by
  unfold seqContains
  split <;> simp [h]

theorem seqContains_append_left {hay needle : List Char} (pre : List Char)
    (h : seqContains hay needle = true) : seqContains (pre ++ hay) needle = true := by
  induction pre with
  | nil => simpa using h
  | cons a as ih => exact seqContains_cons a ih

theorem seqContains_self_append (n t : List Char) :
    seqContains (n ++ t) n = true :=
  seqContains_of_leads (seqLeads_append n t)

theorem seqContains_nil_of_ne_nil {needle : List Char} (c : Char) (cs : List Char)
    (h : needle = c :: cs) : seqContains [] needle = false := by
  subst h; rfl

/-- JavaScript `Array.prototype.includes` over string lists (uses `==`). -/
def jsIncludes : List String → String → Bool
  | [], _ => false
  | y :: ys, x => (y == x) || jsIncludes ys x

/-- JavaScript truthiness for an optional string field: `undefined` and the
empty string are falsy. -/
def jsFalsy : Option String → Bool
  | none => true
  | some s => s == ""

/-- Printing an optional string field inside a template literal
(JavaScript prints `undefined` for a missing field). -/
def optStr : Option String → String
  | none => "undefined"
  | some s => s

/-- `sep`-joining of a string list, modelling `Array.prototype.join(sep)`. -/
def joinSep (sep : String) : List String → String
  | [] => ""
  | [x] => x
  | x :: y :: xs => x ++ sep ++ joinSep sep (y :: xs)

theorem joinSep_contains_mem (sep : String) (parts : List String) (p : String)
    (hp : p ∈ parts) : seqContains (joinSep sep parts).data p.data = true := by
  induction parts with
  | nil => cases hp
  | cons x xs ih =>
    rcases List.mem_cons.mp hp with h | h
    · subst h
      cases xs with
      | nil =>
        show seqContains (joinSep sep [p]).data p.data = true
        have hj : joinSep sep [p] = p := rfl
        rw [hj]
        simpa using seqContains_self_append p.data []
      | cons y ys =>
        show seqContains (joinSep sep (p :: y :: ys)).data p.data = true
        have hj : joinSep sep (p :: y :: ys) = p ++ sep ++ joinSep sep (y :: ys) := rfl
        rw [hj]
        have hdata : (p ++ sep ++ joinSep sep (y :: ys)).data
            = p.data ++ (sep.data ++ (joinSep sep (y :: ys)).data) := by
          simp [String.data_append]
        rw [hdata]
        exact seqContains_self_append p.data _
    · cases xs with
      | nil => cases h
      | cons y ys =>
        have hj : joinSep sep (x :: y :: ys) = x ++ sep ++ joinSep sep (y :: ys) := rfl
        rw [hj]
        have hdata : (x ++ sep ++ joinSep sep (y :: ys)).data
            = (x.data ++ sep.data) ++ (joinSep sep (y :: ys)).data := by
          simp [String.data_append]
        rw [hdata]
        exact seqContains_append_left _ (ih h)

/-! ## Error taxonomy (`src/schemas.ts`)

`ErrorTypeSchema` is the closed enum of failure kinds; `ErrorResponse` has
shape `{ error: { type, message, details? } }`.  The `details` payload in the
source is either a raw message string or the Zod issue array. -/

inductive ErrorType where
  | VALIDATION_ERROR
  | RENDER_ERROR
  | TIMEOUT_ERROR
  | RESOURCE_ERROR
  | UNKNOWN_ERROR
deriving DecidableEq, Repr

/-- One Zod validation issue: a field path and a human-readable message. -/
structure ZodIssue where
  path : List String
  message : String
deriving DecidableEq, Repr

inductive ErrDetails where
  | text (s : String)
  | zodIssues (issues : List ZodIssue)
deriving DecidableEq, Repr

structure ErrorInfo where
  type : ErrorType
  message : String
  details : Option ErrDetails
deriving DecidableEq, Repr

structure ErrorResponse where
  error : ErrorInfo
deriving DecidableEq, Repr

/-- `createErrorResponse` from the application file. -/
def createErrorResponse (type : ErrorType) (message : String)
    (details : Option ErrDetails) : ErrorResponse :=
  ⟨⟨type, message, details⟩⟩

/-! ## Page renderer: error classification (C2)

`generatePagePdf`'s catch block, over an embedded JavaScript error value
(`name` and `message` fields). -/

structure JsError where
  name : String
  message : String
deriving DecidableEq, Repr

/-- The catch block of `generatePagePdf`: first `error.name === 'TimeoutError'`,
then `error.message && error.message.includes('net::')`, else render error. -/
def classifyRenderError (e : JsError) : ErrorResponse :=
  if e.name == "TimeoutError" then
    createErrorResponse .TIMEOUT_ERROR
      "Rendering timed out. Try reducing content complexity or external resources."
      (some (.text e.message))
  else if !(e.message == "") && strIncludes e.message "net::" then
    createErrorResponse .RESOURCE_ERROR
      "Failed to load external resources (fonts/images)."
      (some (.text e.message))
  else
    createErrorResponse .RENDER_ERROR
      "Failed to render page to PDF."
      (some (.text e.message))

/-- Claim C2: every error raised during a single page render is classified by
first match — a `TimeoutError` name gives a TIMEOUT_ERROR envelope, otherwise
a message containing `net::` gives a RESOURCE_ERROR envelope, otherwise a
RENDER_ERROR envelope — and in every case the envelope's `details` field
carries the original error message. -/
theorem classifyRenderError_first_match (e : JsError) :
    (classifyRenderError e).error.details = some (.text e.message) ∧
    (classifyRenderError e).error.type =
      (if e.name = "TimeoutError" then .TIMEOUT_ERROR
       else if strIncludes e.message "net::" then .RESOURCE_ERROR
       else .RENDER_ERROR) := by
  unfold classifyRenderError
  by_cases hn : e.name = "TimeoutError"
  · simp [hn, createErrorResponse]
  · by_cases hm : e.message = ""
    · have hinc : strIncludes "" "net::" = false := by decide
      simp [hn, hm, hinc, createErrorResponse]
    · by_cases hi : strIncludes e.message "net::" = true
      · simp [hn, hm, hi, createErrorResponse]
      · simp [hn, hm, hi, createErrorResponse]

/-! ## Page renderer: effective timeout (C6)

`const pdfOptions = { ...DEFAULT_PDF_OPTIONS, ...options };`
`const renderTimeout = Math.min(pdfOptions.timeout || 60000, 60000);`
The default options carry `timeout: 60000`, so the merged timeout is the
requested one when present and 60000 otherwise; `|| 60000` additionally
guards the falsy value `0`. -/

def DEFAULT_PDF_TIMEOUT : Nat := 60000

/-- JavaScript `x || d` on numbers (`0` is falsy). -/
def jsOrNat (x d : Nat) : Nat := if x = 0 then d else x

def renderTimeout (timeoutOpt : Option Nat) : Nat :=
  min (jsOrNat (timeoutOpt.getD DEFAULT_PDF_TIMEOUT) DEFAULT_PDF_TIMEOUT) 60000

/-- The Zod bound on `options.timeout` (`z.number().min(1000).max(60000)`)
from `PdfOptionsSchema` in `src/schemas.ts`. -/
def timeoutValid (timeoutOpt : Option Nat) : Prop :=
  ∀ t, timeoutOpt = some t → 1000 ≤ t ∧ t ≤ 60000

/-- Claim C6: for every validated options object the effective render timeout
equals `min(requested, 60000)`, with the requested timeout defaulting to
60000 when absent, and it never exceeds 60000 ms. -/
theorem renderTimeout_capped (timeoutOpt : Option Nat)
    (h : timeoutValid timeoutOpt) :
    renderTimeout timeoutOpt = min (timeoutOpt.getD DEFAULT_PDF_TIMEOUT) 60000 ∧
    renderTimeout timeoutOpt ≤ 60000 := by
  refine ⟨?_, Nat.min_le_right _ _⟩
  unfold renderTimeout jsOrNat
  cases timeoutOpt with
  | none => rfl
  | some t =>
    have h1 : 1000 ≤ t := (h t rfl).1
    have : ¬ t = 0 := by omega
    simp [Option.getD, this]

/-- Witness for C6 at the concrete requested timeout 30000 ms. -/
theorem renderTimeout_capped_witness :
    renderTimeout (some 30000) = min ((some 30000 : Option Nat).getD DEFAULT_PDF_TIMEOUT) 60000 ∧
    renderTimeout (some 30000) ≤ 60000 :=
  renderTimeout_capped (some 30000)
    (fun t ht => by cases ht; exact ⟨by decide, by decide⟩)

/-! ## Batch scheduler (C1)

The chunk loop of the `/generate-pdf` handler:

```
const maxConcurrency = Math.min(pages.length, isVercel ? 3 : 5);
for (let i = 0; i < pages.length; i += maxConcurrency) {
  const chunk = pages.slice(i, i + maxConcurrency);
  const chunkResults = await Promise.all(chunk.map(...));
  pdfBuffers.push(...chunkResults);
}
```

`chunksOf c pages` is the sequence of contiguous windows the loop visits.
The fuel argument of `chunksOfAux` bounds the number of loop iterations by
`pages.length`, which is exact because each iteration advances `i` by
`maxConcurrency ≥ 1`; fuel keeps the recursion structural so that concrete
runs reduce by `rfl`.  The loop for a nonempty list and `c = 0` would not
terminate in the source; it is unreachable because `maxConcurrency ≥ 1`
whenever `pages` is nonempty. -/

def envConcurrencyLimit (isVercel : Bool) : Nat := if isVercel then 3 else 5

def chunksOfAux (c : Nat) : Nat → List α → List (List α)
  | 0, _ => []
  | _ + 1, [] => []
  | fuel + 1, x :: xs =>
    if c = 0 then []
    else (x :: xs).take c :: chunksOfAux c fuel ((x :: xs).drop c)

def chunksOf (c : Nat) (l : List α) : List (List α) := chunksOfAux c l.length l

/-- The buffers produced by the chunk loop, in the order they are pushed
into `pdfBuffers`: per-window `Promise.all` results, windows in sequence. -/
def processChunks (render : α → β) (c : Nat) (pages : List α) : List β :=
  ((chunksOf c pages).map (List.map render)).flatten

theorem chunksOfAux_flatten (c : Nat) (hc : 0 < c) :
    ∀ (fuel : Nat) (l : List α), l.length ≤ fuel →
      (chunksOfAux c fuel l).flatten = l := by
  intro fuel
  induction fuel with
  | zero =>
    intro l hl
    have : l = [] := List.length_eq_zero.mp (Nat.le_zero.mp hl)
    subst this
    rfl
  | succ fuel ih =>
    intro l hl
    cases l with
    | nil => rfl
    | cons x xs =>
      have hcne : ¬ c = 0 := Nat.pos_iff_ne_zero.mp hc
      show (chunksOfAux c (fuel + 1) (x :: xs)).flatten = x :: xs
      rw [chunksOfAux, if_neg hcne]
      have hdrop : ((x :: xs).drop c).length ≤ fuel := by
        rw [List.length_drop]
        have : (x :: xs).length ≤ fuel + 1 := hl
        simp only [List.length_cons] at this ⊢
        omega
      rw [List.flatten_cons, ih _ hdrop, List.take_append_drop]

theorem chunksOfAux_mem_length (c : Nat) :
    ∀ (fuel : Nat) (l : List α) (w : List α), w ∈ chunksOfAux c fuel l →
      w.length ≤ c ∧ w.length ≤ l.length := by
  intro fuel
  induction fuel with
  | zero =>
    intro l w hw
    cases l with
    | nil => cases hw
    | cons x xs => cases hw
  | succ fuel ih =>
    intro l w hw
    cases l with
    | nil => cases hw
    | cons x xs =>
      by_cases hc : c = 0
      · rw [chunksOfAux, if_pos hc] at hw
        cases hw
      · rw [chunksOfAux, if_neg hc] at hw
        rcases List.mem_cons.mp hw with h | h
        · subst h
          rw [List.length_take]
          exact ⟨min_le_left _ _, min_le_right _ _⟩
        · have hrec := ih _ w h
          refine ⟨hrec.1, le_trans hrec.2 ?_⟩
          rw [List.length_drop]
          omega

theorem flatten_map_map (f : α → β) :
    ∀ L : List (List α), (L.map (List.map f)).flatten = L.flatten.map f := by
  intro L
  induction L with
  | nil => rfl
  | cons w ws ih =>
    show (List.map (List.map f) (w :: ws)).flatten = ((w :: ws).flatten).map f
    rw [List.map_cons, List.flatten_cons, List.flatten_cons, ih, List.map_append]

/-! Completion-order model for one window.  `Promise.all(chunk.map(g))`
resolves with results keyed by original index, not by completion time:
`completeWindow render w order` is the list of `(index, result)` pairs in
the order the jobs finish, and `collectWindow` reads slot `j` for each
`j < w.length`, as `Promise.all` does. -/

def completeWindow (render : α → β) (w : List α) (order : List Nat) :
    List (Nat × β) :=
  order.filterMap fun i => ((w.map render).get? i).map fun b => (i, b)

def collectWindow (pairs : List (Nat × β)) (n : Nat) : List (Option β) :=
  (List.range n).map fun j => (pairs.find? fun p => p.1 == j).map Prod.snd

theorem find?_completeWindow (render : α → β) (w : List α) (j : Nat) :
    ∀ order : List Nat, j ∈ order → (∀ i ∈ order, i < w.length) →
      ((completeWindow render w order).find? fun p => p.1 == j)
        = ((w.map render).get? j).map fun b => (j, b) := by
  intro order
  induction order with
  | nil => intro hmem; cases hmem
  | cons i os ih =>
    intro hmem hbound
    have hi : i < w.length := hbound i (List.mem_cons_self i os)
    have hi' : i < (w.map render).length := by simpa using hi
    have hget : (w.map render).get? i = some ((w.map render).get ⟨i, hi'⟩) :=
      List.get?_eq_some.mpr ⟨hi', rfl⟩
    have hfa : (((w.map render).get? i).map fun b => (i, b))
        = some (i, (w.map render).get ⟨i, hi'⟩) := by
      rw [hget]
      rfl
    have hcw : completeWindow render w (i :: os)
        = (i, (w.map render).get ⟨i, hi'⟩) :: completeWindow render w os :=
      List.filterMap_cons_some hfa
    by_cases hij : i = j
    · subst hij
      rw [hcw, List.find?_cons_of_pos _ (by simp), hget]
      rfl
    · have hmem' : j ∈ os := by
        rcases List.mem_cons.mp hmem with h | h
        · exact absurd h.symm hij
        · exact h
      rw [hcw, List.find?_cons_of_neg _ (by simp [hij])]
      exact ih hmem' (fun a ha => hbound a (List.mem_cons_of_mem i ha))

theorem collectWindow_completeWindow (render : α → β) (w : List α)
    (order : List Nat) (hperm : order.Perm (List.range w.length)) :
    collectWindow (completeWindow render w order) w.length
      = (w.map render).map some := by
  have hbound : ∀ i ∈ order, i < w.length := fun i hi =>
    List.mem_range.mp (hperm.mem_iff.mp hi)
  apply List.ext_getElem
  · simp [collectWindow]
  · intro j h1 h2
    have hj : j < w.length := by
      simpa [collectWindow] using h1
    have hjmem : j ∈ order := hperm.mem_iff.mpr (List.mem_range.mpr hj)
    have hfind := find?_completeWindow render w j order hjmem hbound
    have hj' : j < (w.map render).length := by simpa using hj
    have hget : (w.map render).get? j = some ((w.map render).get ⟨j, hj'⟩) :=
      List.get?_eq_some.mpr ⟨hj', rfl⟩
    simp only [collectWindow, List.getElem_map, List.getElem_range]
    rw [hfind, hget]
    simp

/-- Claim C1: the batch scheduler processes the render jobs in contiguous
windows of size at most `min(concurrencyLimit, jobCount)` (one window per
loop iteration, each awaited whole before the next starts), the sequence of
buffers it pushes equals the input pages mapped in original order, and the
per-window collection is keyed by original index, so the output is
independent of the completion order of the jobs inside a window. -/
theorem scheduler_windowed_order_preserving (pages : List α) (climit : Nat)
    (render : α → β) (hc : 0 < climit) :
    (∀ w ∈ chunksOf (min pages.length climit) pages,
        w.length ≤ min climit pages.length) ∧
    processChunks render (min pages.length climit) pages = pages.map render ∧
    (∀ w ∈ chunksOf (min pages.length climit) pages, ∀ order : List Nat,
        order.Perm (List.range w.length) →
        collectWindow (completeWindow render w order) w.length
          = (w.map render).map some) := by
  refine ⟨?_, ?_, ?_⟩
  · intro w hw
    have hlen := chunksOfAux_mem_length (min pages.length climit) pages.length pages w hw
    exact le_min (le_trans hlen.1 (min_le_right _ _)) hlen.2
  · unfold processChunks
    rw [flatten_map_map]
    cases pages with
    | nil => rfl
    | cons x xs =>
      have hpos : 0 < min (x :: xs).length climit := by
        rw [lt_min_iff]
        exact ⟨by simp, hc⟩
      rw [chunksOf, chunksOfAux_flatten _ hpos _ _ (le_refl _)]
  · intro w _ order hperm
    exact collectWindow_completeWindow render w order hperm

/-- Witness for C1: five pages at the Vercel concurrency limit 3; the first
window is `["ab", "c", "def"]` and completing it in the order job 1, job 0,
job 2 still yields the window's results in original index order. -/
theorem scheduler_windowed_order_preserving_witness :
    processChunks String.length
        (min (["ab", "c", "def", "gh", "i"] : List String).length (envConcurrencyLimit true))
        ["ab", "c", "def", "gh", "i"] = [2, 1, 3, 2, 1] ∧
    collectWindow (completeWindow String.length ["ab", "c", "def"] [1, 0, 2]) 3
      = [some 2, some 1, some 3] := by
  have h := scheduler_windowed_order_preserving
    (["ab", "c", "def", "gh", "i"] : List String) (envConcurrencyLimit true)
    String.length (by decide)
  constructor
  · rw [h.2.1]
    rfl
  · have hmem : (["ab", "c", "def"] : List String) ∈
        chunksOf (min (["ab", "c", "def", "gh", "i"] : List String).length
          (envConcurrencyLimit true)) ["ab", "c", "def", "gh", "i"] := by
      decide
    have hw := h.2.2 ["ab", "c", "def"] hmem [1, 0, 2] (by decide)
    calc collectWindow (completeWindow String.length ["ab", "c", "def"] [1, 0, 2]) 3
        = collectWindow (completeWindow String.length ["ab", "c", "def"] [1, 0, 2])
            (["ab", "c", "def"] : List String).length := rfl
      _ = ((["ab", "c", "def"] : List String).map String.length).map some := hw
      _ = [some 2, some 1, some 3] := rfl

/-! ## Page renderer: resource-admission policy (C3)

The repository contains two request-interception handlers.  The font-enabled
application file installs:

```
if (['document','script','stylesheet','font','image'].includes(resourceType)) {
  if (resourceType === 'font' || resourceType === 'image' ||
      url.includes('fonts.googleapis.com') || url.includes('fonts.gstatic.com') ||
      url.includes('cdn.jsdelivr.net') || url.includes('cdnjs.cloudflare.com') ||
      url.includes('unpkg.com')) { req.continue(); }
  else if (['document','script','stylesheet'].includes(resourceType)) { req.continue(); }
  else { req.abort(); }
} else { req.abort(); }
```

while `src/app.ts` (the ultra-fast variant) installs:

```
if (['document', 'script'].includes(resourceType)) { req.continue(); } else { req.abort(); }
```

`true` models `req.continue()`, `false` models `req.abort()`. -/

def fullAllowList : List String :=
  ["document", "script", "stylesheet", "font", "image"]

def plainAllowList : List String := ["document", "script"]

def allowRequestFull (resourceType url : String) : Bool :=
  if jsIncludes fullAllowList resourceType then
    if resourceType == "font" || resourceType == "image"
        || strIncludes url "fonts.googleapis.com"
        || strIncludes url "fonts.gstatic.com"
        || strIncludes url "cdn.jsdelivr.net"
        || strIncludes url "cdnjs.cloudflare.com"
        || strIncludes url "unpkg.com" then
      true
    else if jsIncludes plainAllowList resourceType
        || resourceType == "stylesheet" then
      true
    else
      false
  else
    false

def allowRequestUltraFast (resourceType _url : String) : Bool :=
  if jsIncludes plainAllowList resourceType then true else false

theorem jsIncludes_eq_true_iff_mem (l : List String) (x : String) :
    jsIncludes l x = true ↔ x ∈ l := by
  induction l with
  | nil => simp [jsIncludes]
  | cons y ys ih =>
    simp only [jsIncludes, Bool.or_eq_true, beq_iff_eq, ih, List.mem_cons]
    constructor
    · rintro (h | h)
      · exact Or.inl h.symm
      · exact Or.inr h
    · rintro (h | h)
      · exact Or.inl h.symm
      · exact Or.inr h

/-- Counterexample to claim C3 as stated: the interception handler of
`src/app.ts` aborts a `stylesheet` request even though `stylesheet` belongs
to the claimed allow-list `{document, script, stylesheet, font, image}`. -/
theorem allowRequestUltraFast_rejects_stylesheet :
    jsIncludes fullAllowList "stylesheet" = true ∧
    allowRequestUltraFast "stylesheet" "https://cdn.jsdelivr.net/style.css" = false := by
  decide

/-- Claim C3 (amended): the font-enabled renderer's admission policy allows a
request exactly when its resource class is in
`{document, script, stylesheet, font, image}`, independently of the URL (the
inner abort branch is unreachable, and the trusted-CDN URL test never admits
a class outside the list); the ultra-fast renderer in `src/app.ts` instead
allows exactly the classes `{document, script}` and aborts every other
class, including `stylesheet`, `font` and `image`. -/
theorem resourceAdmission_policies (resourceType url : String) :
    allowRequestFull resourceType url = jsIncludes fullAllowList resourceType ∧
    allowRequestUltraFast resourceType url = jsIncludes plainAllowList resourceType := by
  constructor
  · unfold allowRequestFull
    by_cases hmem : jsIncludes fullAllowList resourceType = true
    · rw [if_pos hmem, hmem]
      by_cases hfi : (resourceType == "font" || resourceType == "image"
          || strIncludes url "fonts.googleapis.com"
          || strIncludes url "fonts.gstatic.com"
          || strIncludes url "cdn.jsdelivr.net"
          || strIncludes url "cdnjs.cloudflare.com"
          || strIncludes url "unpkg.com") = true
      · rw [if_pos hfi]
      · rw [if_neg hfi]
        have hnf : ¬ resourceType = "font" := by
          intro h
          apply hfi
          simp [h]
        have hni : ¬ resourceType = "image" := by
          intro h
          apply hfi
          simp [h]
        have h3 : (jsIncludes plainAllowList resourceType
            || resourceType == "stylesheet") = true := by
          have hfive := (jsIncludes_eq_true_iff_mem fullAllowList resourceType).mp hmem
          simp only [fullAllowList, List.mem_cons, List.mem_singleton,
            List.not_mem_nil, or_false] at hfive
          rcases hfive with h | h | h | h | h
          · subst h; decide
          · subst h; decide
          · subst h; decide
          · exact absurd h hnf
          · exact absurd h hni
        rw [if_pos h3]
    · rw [if_neg hmem]
      exact (Bool.not_eq_true _).mp hmem |>.symm
  · unfold allowRequestUltraFast
    by_cases hmem : jsIncludes plainAllowList resourceType = true
    · rw [if_pos hmem, hmem]
    · rw [if_neg hmem]
      exact (Bool.not_eq_true _).mp hmem |>.symm

/-! ## HTML preprocessor: `injectFontCSS` (C7)

The source locates an insertion point with the JavaScript regexes
`/<head[^>]*>/i` and `/<html[^>]*>/i` (`String.prototype.match` returns the
leftmost match).  A match of `/<head[^>]*>/i` at position `i` consists of
the five characters `<head` compared case-insensitively, then every
character up to (and including) the first following `>`.  Note this pattern
also matches tags such as `<header ...>`, since `[^>]*` places no
constraint on the characters after `<head`. -/

/-- Case-insensitive character comparison (regex `/i` flag). -/
def ciEq (a b : Char) : Bool := a.toLower == b.toLower

/-- `ciLeads pat s`: `pat` matches case-insensitively at the start of `s`. -/
def ciLeads : List Char → List Char → Bool
  | [], _ => true
  | _ :: _, [] => false
  | p :: ps, c :: cs => ciEq p c && ciLeads ps cs

/-- `[^>]*>`: the number of characters consumed up to and including the
first `>`, or `none` if no `>` remains. -/
def consumeToGt : List Char → Option Nat
  | [] => none
  | c :: cs => if c = '>' then some 1 else (consumeToGt cs).map (· + 1)

/-- Length of the regex match starting exactly at the head of `s`, if any. -/
def tagMatchAt (tag s : List Char) : Option Nat :=
  if ciLeads tag s then (consumeToGt (s.drop tag.length)).map (tag.length + ·)
  else none

/-- Leftmost match of the pattern: `some (index, length)`. -/
def findTagMatch (tag : List Char) : List Char → Option (Nat × Nat)
  | [] => none
  | c :: cs =>
    match tagMatchAt tag (c :: cs) with
    | some len => some (0, len)
    | none => (findTagMatch tag cs).map fun p => (p.1 + 1, p.2)

def headPat : List Char := "<head".data

def htmlPat : List Char := "<html".data

/-- `injectFontCSS` from the font-enabled application file. -/
def injectFontCSS (html fontCSS : String) : String :=
  match findTagMatch headPat html.data with
  | some (i, len) =>
      String.mk (html.data.take (i + len)) ++ "\n<style>" ++ fontCSS ++ "</style>\n"
        ++ String.mk (html.data.drop (i + len))
  | none =>
    match findTagMatch htmlPat html.data with
    | some (i, len) =>
        String.mk (html.data.take (i + len)) ++ "\n<head><style>" ++ fontCSS
          ++ "</style></head>\n" ++ String.mk (html.data.drop (i + len))
    | none => "<style>" ++ fontCSS ++ "</style>\n" ++ html

theorem tagMatchAt_nil (tag : List Char) : tagMatchAt tag [] = none := by
  cases tag <;> rfl

theorem findTagMatch_none (tag : List Char) :
    ∀ s : List Char, findTagMatch tag s = none →
      ∀ i : Nat, tagMatchAt tag (s.drop i) = none := by
  intro s
  induction s with
  | nil =>
    intro _ i
    rw [List.drop_nil]
    exact tagMatchAt_nil tag
  | cons c cs ih =>
    intro h i
    have h0 : tagMatchAt tag (c :: cs) = none := by
      cases h1 : tagMatchAt tag (c :: cs) with
      | none => rfl
      | some len =>
        rw [findTagMatch, h1] at h
        cases h
    have hrest : findTagMatch tag cs = none := by
      rw [findTagMatch, h0] at h
      exact Option.map_eq_none'.mp h
    cases i with
    | zero => exact h0
    | succ j => exact ih hrest j

theorem findTagMatch_some (tag : List Char) :
    ∀ (s : List Char) (i len : Nat), findTagMatch tag s = some (i, len) →
      tagMatchAt tag (s.drop i) = some len ∧
      ∀ j, j < i → tagMatchAt tag (s.drop j) = none := by
  intro s
  induction s with
  | nil => intro i len h; cases h
  | cons c cs ih =>
    intro i len h
    cases h1 : tagMatchAt tag (c :: cs) with
    | some l =>
      rw [findTagMatch, h1] at h
      have hi : i = 0 ∧ len = l := by
        cases h
        exact ⟨rfl, rfl⟩
      rcases hi with ⟨hi, hlen⟩
      subst hi
      subst hlen
      exact ⟨h1, fun j hj => absurd hj (Nat.not_lt_zero j)⟩
    | none =>
      rw [findTagMatch, h1] at h
      rcases Option.map_eq_some'.mp h with ⟨p, hp, hpe⟩
      have hi : i = p.1 + 1 ∧ len = p.2 := by
        cases hpe
        exact ⟨rfl, rfl⟩
      rcases hi with ⟨hi, hlen⟩
      subst hi
      subst hlen
      have hrec := ih p.1 p.2 (by rw [hp])
      refine ⟨hrec.1, ?_⟩
      intro j hj
      cases j with
      | zero => exact h1
      | succ j' => exact hrec.2 j' (Nat.lt_of_succ_lt_succ hj)

/-! Claim-side reading of C7: "an opening head tag exists" — a tag whose
name is exactly `head` (case-insensitive), i.e. `<head` followed by `>`,
whitespace or `/`.  These definitions follow the claim's words and are only
used to state the counterexample. -/

def isTagNameEnd (c : Char) : Bool :=
  c == '>' || c == ' ' || c == '\t' || c == '\n' || c == '\r' || c == '/'

def specOpensTagAt (tag s : List Char) : Bool :=
  ciLeads tag s &&
    (match s.drop tag.length with
     | [] => false
     | c :: _ => isTagNameEnd c)

def specHasOpenTag (tag : List Char) : List Char → Bool
  | [] => false
  | c :: cs => specOpensTagAt tag (c :: cs) || specHasOpenTag tag cs

/-- Counterexample to claim C7 as stated: `"<header>x</header>"` contains no
opening head tag and no opening html tag, so the claimed fallback chain
requires the style to be prepended before all other content; but the code's
pattern `/<head[^>]*>/i` matches the `<header>` tag, and `injectFontCSS`
inserts the style after it instead. -/
theorem injectFontCSS_header_overmatch :
    specHasOpenTag headPat "<header>x</header>".data = false ∧
    specHasOpenTag htmlPat "<header>x</header>".data = false ∧
    injectFontCSS "<header>x</header>" "C" ≠ "<style>C</style>\n<header>x</header>" := by
  refine ⟨by decide, by decide, by decide⟩

/-- Claim C7 (amended): `injectFontCSS` is a pure total function following a
three-step fallback chain keyed on the leftmost match of the case-insensitive
pattern `<head` + non-`>` characters + `>` (which also matches tags whose
name merely starts with `head`, such as `<header>`): if that pattern matches,
the style is inserted immediately after its first match; otherwise, if the
corresponding `<html` pattern matches, a synthetic head block is inserted
immediately after its first match; otherwise the style is prepended before
all other content. -/
theorem injectFontCSS_fallback_chain (html fontCSS : String) :
    (∀ i len, findTagMatch headPat html.data = some (i, len) →
       injectFontCSS html fontCSS
         = String.mk (html.data.take (i + len)) ++ "\n<style>" ++ fontCSS ++ "</style>\n"
             ++ String.mk (html.data.drop (i + len)) ∧
       tagMatchAt headPat (html.data.drop i) = some len ∧
       ∀ j, j < i → tagMatchAt headPat (html.data.drop j) = none) ∧
    (findTagMatch headPat html.data = none →
      ∀ i len, findTagMatch htmlPat html.data = some (i, len) →
        injectFontCSS html fontCSS
          = String.mk (html.data.take (i + len)) ++ "\n<head><style>" ++ fontCSS
              ++ "</style></head>\n" ++ String.mk (html.data.drop (i + len)) ∧
        tagMatchAt htmlPat (html.data.drop i) = some len ∧
        (∀ j, j < i → tagMatchAt htmlPat (html.data.drop j) = none) ∧
        (∀ j, tagMatchAt headPat (html.data.drop j) = none)) ∧
    (findTagMatch headPat html.data = none → findTagMatch htmlPat html.data = none →
      injectFontCSS html fontCSS = "<style>" ++ fontCSS ++ "</style>\n" ++ html ∧
      (∀ j, tagMatchAt headPat (html.data.drop j) = none) ∧
      (∀ j, tagMatchAt htmlPat (html.data.drop j) = none)) := by
  refine ⟨?_, ?_, ?_⟩
  · intro i len h
    have hspec := findTagMatch_some headPat html.data i len h
    refine ⟨?_, hspec.1, hspec.2⟩
    unfold injectFontCSS
    rw [h]
  · intro hnone i len h
    have hspec := findTagMatch_some htmlPat html.data i len h
    refine ⟨?_, hspec.1, hspec.2, findTagMatch_none headPat html.data hnone⟩
    unfold injectFontCSS
    rw [hnone, h]
  · intro hnone1 hnone2
    refine ⟨?_, findTagMatch_none headPat html.data hnone1,
      findTagMatch_none htmlPat html.data hnone2⟩
    unfold injectFontCSS
    rw [hnone1, hnone2]

/-- Witness for C7 (amended) on a document with a genuine head tag. -/
theorem injectFontCSS_fallback_chain_witness :
    injectFontCSS "<html><head>x</head></html>" "F"
      = "<html><head>\n<style>F</style>\nx</head></html>" := by
  have h := (injectFontCSS_fallback_chain "<html><head>x</head></html>" "F").1 6 6
    (by decide)
  rw [h.1]
  decide

/-! ## Font resolver (C4)

`downloadAndEncodeFont` with the outcome of the single `fetch` call passed
explicitly.  `FetchOutcome.failed` covers a rejected fetch (network error or
the 10-second `AbortSignal.timeout`); `FetchOutcome.resp` is a settled
response with its status and body bytes.  A non-ok status throws inside the
`try` block and is caught by the same `catch`, so it also yields `null`. -/

structure FontOptions where
  family : Option String := none
  url : Option String := none
  format : Option String := none
  weight : Option String := none
  style : Option String := none
deriving DecidableEq, Repr

inductive FetchOutcome where
  | failed (message : String)
  | resp (status : Nat) (statusText : String) (body : List Nat)
deriving DecidableEq, Repr

/-- `response.ok`: status in the inclusive range 200–299. -/
def respOk (status : Nat) : Bool := 200 ≤ status && status ≤ 299

/-- The size guard constant `1024 * 1024 * 2` from the source (the adjacent
comment says 1MB; the code enforces 2MiB). -/
def FONT_BYTE_CEILING : Nat := 1024 * 1024 * 2

def base64Alphabet : String :=
  "ABCDEFGHIJKLMNOPQRSTUVWXYZabcdefghijklmnopqrstuvwxyz0123456789+/"

def b64c (n : Nat) : Char := base64Alphabet.data.getD n '='

/-- `Buffer.from(bytes).toString('base64')`. -/
def base64Encode : List Nat → String
  | [] => ""
  | [a] => String.mk [b64c (a / 4 % 64), b64c (a % 4 * 16), '=', '=']
  | [a, b] =>
    String.mk [b64c (a / 4 % 64), b64c (a % 4 * 16 + b / 16), b64c (b % 16 * 4), '=']
  | a :: b :: c :: rest =>
    String.mk [b64c (a / 4 % 64), b64c (a % 4 * 16 + b / 16),
      b64c (b % 16 * 4 + c / 64), b64c (c % 64)] ++ base64Encode rest

def downloadAndEncodeFont (fo : FontOptions) (fetch : FetchOutcome) :
    Option String :=
  if jsFalsy fo.family || jsFalsy fo.url then none
  else
    match fetch with
    | .failed _ => none
    | .resp status _ body =>
      if !respOk status then none
      else if FONT_BYTE_CEILING < body.length then none
      else some (base64Encode body)

/-- JavaScript `x || d` on an optional string. -/
def jsOrStr (o : Option String) (d : String) : String :=
  match o with
  | none => d
  | some s => if s = "" then d else s

/-- `generateFontCSS` from the font-enabled application file (the template
literal, braces and quotes written as `\x7b`, `\x7d`, `\x27`). -/
def generateFontCSS (fo : FontOptions) (base64Data : String) : String :=
  let format := jsOrStr fo.format "woff2"
  let weight := jsOrStr fo.weight "400"
  let style := jsOrStr fo.style "normal"
  "\n    @font-face \x7b\n      font-family: \x27" ++ optStr fo.family
    ++ "\x27;\n      src: url(\x27data:font/" ++ format ++ ";base64," ++ base64Data
    ++ "\x27) format(\x27" ++ format ++ "\x27);\n      font-weight: " ++ weight
    ++ ";\n      font-style: " ++ style ++ ";\n      font-display: swap;\n    \x7d"

/-- The font-processing step of the `/generate-pdf` handler:
`fontCSS` stays `''` unless the descriptor is truthy-complete and the
download succeeds. -/
def resolveFontCSS (font : Option FontOptions) (fetch : FetchOutcome) : String :=
  match font with
  | none => ""
  | some f =>
    if !jsFalsy f.family && !jsFalsy f.url then
      match downloadAndEncodeFont f fetch with
      | some base64Font => generateFontCSS f base64Font
      | none => ""
    else ""

/-- `const processedHtml = fontCSS ? injectFontCSS(html, fontCSS) : html;` -/
def processedHtml (fontCSS html : String) : String :=
  if fontCSS = "" then html else injectFontCSS html fontCSS

/-- Claim C4: `downloadAndEncodeFont` is total and returns `null` exactly on
an incomplete (falsy) descriptor, a failed or timed-out fetch, a non-success
status, or a payload over the byte ceiling; and when it returns `null` the
pipeline renders every page's HTML unmodified (fallback fonts) — the font
step raises no error envelope of any kind. -/
theorem downloadAndEncodeFont_never_fatal (fo : FontOptions) (fetch : FetchOutcome) :
    (downloadAndEncodeFont fo fetch = none ↔
      (jsFalsy fo.family = true ∨ jsFalsy fo.url = true
        ∨ (∃ m, fetch = .failed m)
        ∨ (∃ status statusText body, fetch = .resp status statusText body
             ∧ respOk status = false)
        ∨ (∃ status statusText body, fetch = .resp status statusText body
             ∧ FONT_BYTE_CEILING < body.length))) ∧
    (downloadAndEncodeFont fo fetch = none →
      ∀ html, processedHtml (resolveFontCSS (some fo) fetch) html = html) := by
  constructor
  · constructor
    · intro h
      by_cases hfam : jsFalsy fo.family = true
      · exact Or.inl hfam
      · by_cases hurl : jsFalsy fo.url = true
        · exact Or.inr (Or.inl hurl)
        · have hfam' := (Bool.not_eq_true _).mp hfam
          have hurl' := (Bool.not_eq_true _).mp hurl
          cases fetch with
          | failed m => exact Or.inr (Or.inr (Or.inl ⟨m, rfl⟩))
          | resp status statusText body =>
            by_cases hok : respOk status = true
            · by_cases hsize : FONT_BYTE_CEILING < body.length
              · exact Or.inr (Or.inr (Or.inr (Or.inr
                  ⟨status, statusText, body, rfl, hsize⟩)))
              · exfalso
                unfold downloadAndEncodeFont at h
                rw [hfam', hurl'] at h
                simp [hok, hsize] at h
            · exact Or.inr (Or.inr (Or.inr (Or.inl
                ⟨status, statusText, body, rfl, (Bool.not_eq_true _).mp hok⟩)))
    · intro h
      rcases h with h | h | ⟨m, rfl⟩ | ⟨status, statusText, body, rfl, hok⟩
        | ⟨status, statusText, body, rfl, hsize⟩
      · unfold downloadAndEncodeFont
        simp [h]
      · unfold downloadAndEncodeFont
        simp [h]
      · unfold downloadAndEncodeFont
        split
        · rfl
        · rfl
      · unfold downloadAndEncodeFont
        split
        · rfl
        · simp [hok]
      · unfold downloadAndEncodeFont
        split
        · rfl
        · by_cases hok : respOk status = true
          · simp [hok, hsize]
          · simp [(Bool.not_eq_true _).mp hok]
  · intro hnone html
    have hres : resolveFontCSS (some fo) fetch
        = (if !jsFalsy fo.family && !jsFalsy fo.url then
            (match downloadAndEncodeFont fo fetch with
             | some base64Font => generateFontCSS fo base64Font
             | none => "")
           else "") := rfl
    rw [hres]
    by_cases hcomplete : (!jsFalsy fo.family && !jsFalsy fo.url) = true
    · rw [if_pos hcomplete, hnone]
      rfl
    · rw [if_neg hcomplete]
      rfl

/-- Witness for C4: a complete descriptor whose fetch times out yields no
style fragment, and the page HTML goes to the renderer unchanged. -/
theorem downloadAndEncodeFont_never_fatal_witness :
    downloadAndEncodeFont
        ⟨some "Nanum", some "https://fonts.example/f.woff2", none, none, none⟩
        (.failed "The operation was aborted due to timeout") = none ∧
    processedHtml
        (resolveFontCSS (some ⟨some "Nanum", some "https://fonts.example/f.woff2", none, none, none⟩)
          (.failed "The operation was aborted due to timeout"))
        "<p>hi</p>" = "<p>hi</p>" := by
  have h := downloadAndEncodeFont_never_fatal
    ⟨some "Nanum", some "https://fonts.example/f.woff2", none, none, none⟩
    (.failed "The operation was aborted due to timeout")
  have hnone := h.1.mpr
    (Or.inr (Or.inr (Or.inl ⟨"The operation was aborted due to timeout", rfl⟩)))
  exact ⟨hnone, h.2 hnone "<p>hi</p>"⟩

/-! ## Request validation (`src/schemas.ts`)

`PdfRequestSchema` over an embedded request whose shape is already
JSON-correct (objects/arrays/strings in the right places; shape-level type
errors are orthogonal to every claim).  `PdfOptionsSchema` fields other than
`timeout` are forwarded opaquely to the rendering engine and play no role in
the pipeline's control flow, so only `timeout` (whose Zod range bound can
produce issues) is carried.  Zod collects all issues of a parse and throws a
`ZodError` when the list is nonempty. -/

structure POpts where
  timeout : Option Nat := none
deriving DecidableEq, Repr

structure RawPdfRequest where
  pages : List String
  filename : Option String := none
  options : Option POpts := none
  font : Option FontOptions := none
deriving DecidableEq, Repr

structure ValidatedRequest where
  pages : List String
  filename : String
  options : Option POpts
  font : Option FontOptions
deriving DecidableEq, Repr

/-- `z.array(...).min(1, "Pages array must contain at least one HTML string")`. -/
def pagesArrayIssues (pages : List String) : List ZodIssue :=
  if pages.length < 1 then
    [⟨["pages"], "Pages array must contain at least one HTML string"⟩]
  else []

/-- Element checks of `z.array(z.string().min(1))`, one issue per too-short
entry, with Zod's index-qualified path. -/
def pageElemIssuesAux : Nat → List String → List ZodIssue
  | _, [] => []
  | i, p :: ps =>
    (if p.length < 1 then
      [⟨["pages", toString i], "String must contain at least 1 character(s)"⟩]
     else [])
      ++ pageElemIssuesAux (i + 1) ps

/-- `timeout: z.number().min(1000).max(60000).optional()`. -/
def optionsIssues : Option POpts → List ZodIssue
  | none => []
  | some o =>
    match o.timeout with
    | none => []
    | some t =>
      (if t < 1000 then
        [⟨["options", "timeout"], "Number must be greater than or equal to 1000"⟩]
       else [])
        ++ (if 60000 < t then
          [⟨["options", "timeout"], "Number must be less than or equal to 60000"⟩]
         else [])

/-- The `.refine` of `FontOptionsSchema`: `family` and `url` must be truthy
together or falsy together. -/
def fontIssues : Option FontOptions → List ZodIssue
  | none => []
  | some f =>
    if (!jsFalsy f.family && jsFalsy f.url) || (jsFalsy f.family && !jsFalsy f.url) then
      [⟨["font"], "Font family and URL must be used together"⟩]
    else []

/-- `PdfRequestSchema.parse`: collect all issues; on success apply the
`filename` default `'document.pdf'`. -/
def validatePdfRequest (r : RawPdfRequest) : Except (List ZodIssue) ValidatedRequest :=
  match pagesArrayIssues r.pages ++ pageElemIssuesAux 0 r.pages
      ++ optionsIssues r.options ++ fontIssues r.font with
  | [] => .ok ⟨r.pages, r.filename.getD "document.pdf", r.options, r.font⟩
  | i :: is => .error (i :: is)

/-! ## Top-level error handler (C5)

The `errorHandler` middleware receives either a thrown `ZodError`
(`instanceof` test), an object already carrying a classified kind
(`error.error && error.error.type` — every `ErrorType` value is a nonempty
string, hence truthy), or anything else (whose `message` may be absent). -/

inductive TopError where
  | zod (issues : List ZodIssue)
  | enveloped (env : ErrorResponse)
  | other (message : Option String)
deriving DecidableEq, Repr

/-- `error.errors.map(e => path.join('.') + ': ' + e.message).join(', ')`. -/
def zodErrorMessage (issues : List ZodIssue) : String :=
  joinSep ", " (issues.map fun e => joinSep "." e.path ++ ": " ++ e.message)

/-- The `errorHandler` middleware: `(HTTP status, JSON body)`. -/
def errorHandler : TopError → Nat × ErrorResponse
  | .zod issues =>
    (400, createErrorResponse .VALIDATION_ERROR (zodErrorMessage issues)
      (some (.zodIssues issues)))
  | .enveloped env => (500, env)
  | .other m =>
    (500, createErrorResponse .UNKNOWN_ERROR "Failed to generate PDF." (m.map .text))

/-- Claim C5: the top-level handler produces exactly one envelope by
precedence — a ZodError gives a 400 VALIDATION_ERROR whose message
concatenates every violated field path and reason; an error already carrying
a classified kind is surfaced unchanged with status 500; anything else gives
a 500 UNKNOWN_ERROR carrying the raw message as `details`. -/
theorem errorHandler_precedence (e : TopError) :
    (∀ issues, e = .zod issues →
       errorHandler e = (400, createErrorResponse .VALIDATION_ERROR
         (zodErrorMessage issues) (some (.zodIssues issues))) ∧
       ∀ issue ∈ issues,
         seqContains (zodErrorMessage issues).data
           (joinSep "." issue.path ++ ": " ++ issue.message).data = true) ∧
    (∀ env, e = .enveloped env → errorHandler e = (500, env)) ∧
    (∀ m, e = .other m →
       errorHandler e = (500, createErrorResponse .UNKNOWN_ERROR
         "Failed to generate PDF." (m.map .text))) := by
  refine ⟨?_, ?_, ?_⟩
  · intro issues he
    subst he
    refine ⟨rfl, ?_⟩
    intro issue hmem
    exact joinSep_contains_mem ", "
      (issues.map fun e => joinSep "." e.path ++ ": " ++ e.message)
      (joinSep "." issue.path ++ ": " ++ issue.message)
      (List.mem_map_of_mem _ hmem)
  · intro env he
    subst he
    rfl
  · intro m he
    subst he
    rfl

/-- Witness for C5 on a concrete two-issue ZodError. -/
theorem errorHandler_precedence_witness :
    errorHandler (.zod [⟨["pages"], "Required"⟩,
        ⟨["pages", "0"], "String must contain at least 1 character(s)"⟩])
      = (400, createErrorResponse .VALIDATION_ERROR
          "pages: Required, pages.0: String must contain at least 1 character(s)"
          (some (.zodIssues [⟨["pages"], "Required"⟩,
            ⟨["pages", "0"], "String must contain at least 1 character(s)"⟩]))) ∧
    seqContains
      "pages: Required, pages.0: String must contain at least 1 character(s)".data
      "pages.0: String must contain at least 1 character(s)".data = true := by
  have h := (errorHandler_precedence (.zod [⟨["pages"], "Required"⟩,
      ⟨["pages", "0"], "String must contain at least 1 character(s)"⟩])).1
    [⟨["pages"], "Required"⟩,
      ⟨["pages", "0"], "String must contain at least 1 character(s)"⟩] rfl
  constructor
  · rw [h.1]
    rfl
  · have hc := h.2 ⟨["pages", "0"], "String must contain at least 1 character(s)"⟩
      (by decide)
    exact hc

/-! ## The `/generate-pdf` handler (C8, C9, C10)

The handler of the font-enabled application file, with the rendering engine
embedded as `render : String → Except ErrorResponse β` (the classified
failure a `generatePagePdf` call would throw, or the page's PDF buffer) and
the single font fetch outcome passed explicitly.  `browserOpened` records
whether `puppeteer.launch` was reached.  A thrown `ZodError` or envelope
reaches `errorHandler` through `asyncHandler`'s `.catch(next)`; the
resulting `(status, body)` pair is produced by `errorHandler` itself. -/

inductive HandlerBody (β : Type) where
  | errJson (e : ErrorResponse)
  | pdf (contentDisposition : String) (buffers : List β)
deriving DecidableEq

structure HandlerResult (β : Type) where
  browserOpened : Bool
  status : Nat
  body : HandlerBody β
deriving DecidableEq

/-- `Promise.all` over already-settled render outcomes: first (by index)
rejection, else the results in original index order. -/
def promiseAll : List (Except ErrorResponse β) → Except ErrorResponse (List β)
  | [] => .ok []
  | x :: xs =>
    match x with
    | .error e => .error e
    | .ok b => (promiseAll xs).map fun bs => b :: bs

/-- The chunk loop: await each window whole; a rejected window aborts the
remaining windows (fail-fast). -/
def runChunks (render : String → Except ErrorResponse β) :
    List (List String) → Except ErrorResponse (List β)
  | [] => .ok []
  | ch :: rest =>
    match promiseAll (ch.map render) with
    | .error e => .error e
    | .ok bs => (runChunks render rest).map fun more => bs ++ more

/-- The handler body after successful validation: page-count ceiling, font
step, browser launch, chunk loop, merge and response headers. -/
def postValidated (isVercel : Bool) (fetch : FetchOutcome)
    (render : String → Except ErrorResponse β) (v : ValidatedRequest) :
    HandlerResult β :=
  if (if isVercel then 10 else 30) < v.pages.length then
    ⟨false, 400, .errJson (createErrorResponse .VALIDATION_ERROR
      ("Maximum " ++ toString (if isVercel then 10 else 30) ++ " pages allowed.") none)⟩
  else
    match runChunks (fun html => render (processedHtml (resolveFontCSS v.font fetch) html))
        (chunksOf (min v.pages.length (envConcurrencyLimit isVercel)) v.pages) with
    | .error env =>
      ⟨true, (errorHandler (.enveloped env)).1, .errJson (errorHandler (.enveloped env)).2⟩
    | .ok bufs =>
      ⟨true, 200, .pdf ("attachment; filename=\x22" ++ v.filename ++ "\x22") bufs⟩

def postGeneratePdf (isVercel puppeteerAvailable : Bool) (fetch : FetchOutcome)
    (render : String → Except ErrorResponse β) (r : RawPdfRequest) :
    HandlerResult β :=
  if !puppeteerAvailable then
    ⟨false, 500, .errJson (createErrorResponse .UNKNOWN_ERROR
      "Puppeteer is not available in this environment." none)⟩
  else
    match validatePdfRequest r with
    | .error issues =>
      ⟨false, (errorHandler (.zod issues)).1, .errJson (errorHandler (.zod issues)).2⟩
    | .ok v => postValidated isVercel fetch render v

theorem postGeneratePdf_ok (β : Type) (isVercel : Bool) (fetch : FetchOutcome)
    (render : String → Except ErrorResponse β) (r : RawPdfRequest)
    (v : ValidatedRequest) (hv : validatePdfRequest r = .ok v) :
    postGeneratePdf isVercel true fetch render r = postValidated isVercel fetch render v := by
  unfold postGeneratePdf
  rw [hv]
  rfl

theorem postGeneratePdf_zod (β : Type) (isVercel : Bool) (fetch : FetchOutcome)
    (render : String → Except ErrorResponse β) (r : RawPdfRequest)
    (issues : List ZodIssue) (hv : validatePdfRequest r = .error issues) :
    postGeneratePdf isVercel true fetch render r
      = ⟨false, 400, .errJson (createErrorResponse .VALIDATION_ERROR
          (zodErrorMessage issues) (some (.zodIssues issues)))⟩ := by
  unfold postGeneratePdf
  rw [hv]
  rfl

theorem validatePdfRequest_ok_shape (r : RawPdfRequest) (v : ValidatedRequest)
    (hv : validatePdfRequest r = .ok v) :
    v = ⟨r.pages, r.filename.getD "document.pdf", r.options, r.font⟩ ∧
    pagesArrayIssues r.pages = [] ∧ pageElemIssuesAux 0 r.pages = [] ∧
    optionsIssues r.options = [] ∧ fontIssues r.font = [] := by
  cases hiss : pagesArrayIssues r.pages ++ pageElemIssuesAux 0 r.pages
      ++ optionsIssues r.options ++ fontIssues r.font with
  | nil =>
    unfold validatePdfRequest at hv
    rw [hiss] at hv
    have hv' : Except.ok (ε := List ZodIssue)
        (⟨r.pages, r.filename.getD "document.pdf", r.options, r.font⟩ : ValidatedRequest)
        = Except.ok v := hv
    have h1 := List.append_eq_nil.mp hiss
    have h2 := List.append_eq_nil.mp h1.1
    have h3 := List.append_eq_nil.mp h2.1
    cases hv'
    exact ⟨rfl, h3.1, h3.2, h2.2, h1.2⟩
  | cons i is =>
    unfold validatePdfRequest at hv
    rw [hiss] at hv
    have hv' : Except.error (α := ValidatedRequest) (i :: is) = Except.ok v := hv
    cases hv'

/-- Claim C8: a request whose pages count exceeds the active ceiling (10 on
Vercel, 30 locally) is rejected with a 400 VALIDATION_ERROR response before
the browser is launched, and — whenever it passes schema validation, so the
ceiling check is the rejecting one — the message states the exact ceiling. -/
theorem maxPages_rejected_before_browser (β : Type) (isVercel : Bool)
    (fetch : FetchOutcome) (render : String → Except ErrorResponse β)
    (r : RawPdfRequest)
    (hlen : (if isVercel then 10 else 30) < r.pages.length) :
    (postGeneratePdf isVercel true fetch render r).browserOpened = false ∧
    (postGeneratePdf isVercel true fetch render r).status = 400 ∧
    (∃ msg details, (postGeneratePdf isVercel true fetch render r).body
        = .errJson (createErrorResponse .VALIDATION_ERROR msg details)) ∧
    (∀ v, validatePdfRequest r = .ok v →
      (postGeneratePdf isVercel true fetch render r).body
        = .errJson (createErrorResponse .VALIDATION_ERROR
            ("Maximum " ++ toString (if isVercel then 10 else 30) ++ " pages allowed.") none) ∧
      seqContains
        ("Maximum " ++ toString (if isVercel then 10 else 30) ++ " pages allowed.").data
        (toString (if isVercel then 10 else 30)).data = true) := by
  cases hv : validatePdfRequest r with
  | error issues =>
    have hout := postGeneratePdf_zod β isVercel fetch render r issues hv
    rw [hout]
    refine ⟨rfl, rfl, ⟨zodErrorMessage issues, some (.zodIssues issues), rfl⟩, ?_⟩
    intro v hok
    cases hok
  | ok v =>
    have hshape := validatePdfRequest_ok_shape r v hv
    have hpages : v.pages = r.pages := by
      rw [hshape.1]
    have hlen' : (if isVercel then 10 else 30) < v.pages.length := by
      rw [hpages]
      exact hlen
    have hout : postGeneratePdf isVercel true fetch render r
        = ⟨false, 400, .errJson (createErrorResponse .VALIDATION_ERROR
            ("Maximum " ++ toString (if isVercel then 10 else 30) ++ " pages allowed.")
            none)⟩ := by
      rw [postGeneratePdf_ok β isVercel fetch render r v hv]
      unfold postValidated
      rw [if_pos hlen']
    rw [hout]
    refine ⟨rfl, rfl, ⟨_, _, rfl⟩, ?_⟩
    intro v' _
    refine ⟨rfl, ?_⟩
    have hdata : ("Maximum " ++ toString (if isVercel then 10 else 30)
        ++ " pages allowed.").data
        = "Maximum ".data ++ ((toString (if isVercel then 10 else 30)).data
            ++ " pages allowed.".data) := by
      simp [String.data_append]
    rw [hdata]
    exact seqContains_append_left _ (seqContains_self_append _ _)

/-- Witness for C8: eleven pages on the Vercel profile. -/
theorem maxPages_rejected_before_browser_witness :
    (postGeneratePdf true true (.failed "x") (fun _ => Except.ok (0 : Nat))
        ⟨["a", "a", "a", "a", "a", "a", "a", "a", "a", "a", "a"], none, none, none⟩).browserOpened
      = false ∧
    (postGeneratePdf true true (.failed "x") (fun _ => Except.ok (0 : Nat))
        ⟨["a", "a", "a", "a", "a", "a", "a", "a", "a", "a", "a"], none, none, none⟩).status
      = 400 ∧
    (postGeneratePdf true true (.failed "x") (fun _ => Except.ok (0 : Nat))
        ⟨["a", "a", "a", "a", "a", "a", "a", "a", "a", "a", "a"], none, none, none⟩).body
      = .errJson (createErrorResponse .VALIDATION_ERROR "Maximum 10 pages allowed." none) := by
  have h := maxPages_rejected_before_browser Nat true (.failed "x")
    (fun _ => Except.ok (0 : Nat))
    ⟨["a", "a", "a", "a", "a", "a", "a", "a", "a", "a", "a"], none, none, none⟩
    (by decide)
  have hv : validatePdfRequest
      ⟨["a", "a", "a", "a", "a", "a", "a", "a", "a", "a", "a"], none, none, none⟩
      = .ok ⟨["a", "a", "a", "a", "a", "a", "a", "a", "a", "a", "a"],
          "document.pdf", none, none⟩ := rfl
  have hmsg := (h.2.2.2 _ hv).1
  refine ⟨h.1, h.2.1, ?_⟩
  rw [hmsg]
  rfl

theorem pageElemIssuesAux_ne_nil :
    ∀ (ps : List String) (i : Nat), "" ∈ ps → pageElemIssuesAux i ps ≠ [] := by
  intro ps
  induction ps with
  | nil => intro i h; cases h
  | cons p pt ih =>
    intro i hmem
    rcases List.mem_cons.mp hmem with h | h
    · have hp : p.length < 1 := by
        rw [← h]
        decide
      unfold pageElemIssuesAux
      rw [if_pos hp]
      simp
    · unfold pageElemIssuesAux
      intro hnil
      exact ih (i + 1) h (List.append_eq_nil.mp hnil).2

theorem pageElemIssuesAux_nil_bound :
    ∀ (ps : List String) (i : Nat), pageElemIssuesAux i ps = [] →
      ∀ p ∈ ps, 1 ≤ p.length := by
  intro ps
  induction ps with
  | nil => intro i _ p hp; cases hp
  | cons q pt ih =>
    intro i hnil p hp
    unfold pageElemIssuesAux at hnil
    have hparts := List.append_eq_nil.mp hnil
    rcases List.mem_cons.mp hp with h | h
    · subst h
      by_cases hlt : p.length < 1
      · rw [if_pos hlt] at hnil
        simp at hnil
      · omega
    · exact ih (i + 1) hparts.2 p h

/-- Claim C9: a request whose pages array contains an empty string (or is
itself empty) is rejected with a 400 VALIDATION_ERROR before the browser is
launched; equivalently, validation only succeeds when the array is nonempty
and every entry has length at least 1. -/
theorem emptyPage_rejected (r : RawPdfRequest) :
    ((r.pages = [] ∨ "" ∈ r.pages) →
      ∀ (β : Type) (isVercel : Bool) (fetch : FetchOutcome)
        (render : String → Except ErrorResponse β),
        (postGeneratePdf isVercel true fetch render r).browserOpened = false ∧
        (postGeneratePdf isVercel true fetch render r).status = 400 ∧
        ∃ msg details, (postGeneratePdf isVercel true fetch render r).body
          = .errJson (createErrorResponse .VALIDATION_ERROR msg details)) ∧
    (∀ v, validatePdfRequest r = .ok v →
      r.pages ≠ [] ∧ ∀ p ∈ r.pages, 1 ≤ p.length) := by
  constructor
  · intro hbad β isVercel fetch render
    have hne : pagesArrayIssues r.pages ++ pageElemIssuesAux 0 r.pages
        ++ optionsIssues r.options ++ fontIssues r.font ≠ [] := by
      rcases hbad with h | h
      · rw [h]
        intro hnil
        have ha := (List.append_eq_nil.mp
          (List.append_eq_nil.mp (List.append_eq_nil.mp hnil).1).1).1
        simp [pagesArrayIssues] at ha
      · intro hnil
        have hb := (List.append_eq_nil.mp
          (List.append_eq_nil.mp (List.append_eq_nil.mp hnil).1).1).2
        exact pageElemIssuesAux_ne_nil r.pages 0 h hb
    cases hiss : pagesArrayIssues r.pages ++ pageElemIssuesAux 0 r.pages
        ++ optionsIssues r.options ++ fontIssues r.font with
    | nil => exact absurd hiss hne
    | cons i is =>
      have hv : validatePdfRequest r = .error (i :: is) := by
        unfold validatePdfRequest
        rw [hiss]
      have hout := postGeneratePdf_zod β isVercel fetch render r (i :: is) hv
      rw [hout]
      exact ⟨rfl, rfl, zodErrorMessage (i :: is), some (.zodIssues (i :: is)), rfl⟩
  · intro v hv
    have hshape := validatePdfRequest_ok_shape r v hv
    constructor
    · intro hnil
      have := hshape.2.1
      rw [hnil] at this
      simp [pagesArrayIssues] at this
    · exact pageElemIssuesAux_nil_bound r.pages 0 hshape.2.2.1

/-- Witness for C9: a two-element pages array whose first entry is empty. -/
theorem emptyPage_rejected_witness :
    (postGeneratePdf true true (.failed "x") (fun _ => Except.ok (0 : Nat))
        ⟨["", "y"], none, none, none⟩).browserOpened = false ∧
    (postGeneratePdf true true (.failed "x") (fun _ => Except.ok (0 : Nat))
        ⟨["", "y"], none, none, none⟩).status = 400 := by
  have h := (emptyPage_rejected ⟨["", "y"], none, none, none⟩).1
    (Or.inr (by decide)) Nat true (.failed "x") (fun _ => Except.ok (0 : Nat))
  exact ⟨h.1, h.2.1⟩

/-- Claim C10: validation normalizes an absent `filename` to
`'document.pdf'` (every validated request carries the concrete filename
`r.filename.getD 'document.pdf'`), and the successful response's
Content-Disposition attachment name uses that default. -/
theorem filename_defaulted (r : RawPdfRequest) (v : ValidatedRequest)
    (hv : validatePdfRequest r = .ok v) :
    v.filename = r.filename.getD "document.pdf" ∧
    (r.filename = none →
      v.filename = "document.pdf" ∧
      ∀ (β : Type) (isVercel : Bool) (fetch : FetchOutcome)
        (render : String → Except ErrorResponse β) (cd : String) (bufs : List β),
        (postGeneratePdf isVercel true fetch render r).body = .pdf cd bufs →
        cd = "attachment; filename=\x22document.pdf\x22") := by
  have hshape := validatePdfRequest_ok_shape r v hv
  have hname : v.filename = r.filename.getD "document.pdf" := by
    rw [hshape.1]
  refine ⟨hname, ?_⟩
  intro hfn
  have hdefault : v.filename = "document.pdf" := by
    rw [hname, hfn]
    rfl
  refine ⟨hdefault, ?_⟩
  intro β isVercel fetch render cd bufs hbody
  rw [postGeneratePdf_ok β isVercel fetch render r v hv] at hbody
  unfold postValidated at hbody
  by_cases hmax : (if isVercel then 10 else 30) < v.pages.length
  · rw [if_pos hmax] at hbody
    exact HandlerBody.noConfusion hbody
  · rw [if_neg hmax] at hbody
    cases hrun : runChunks (fun html => render (processedHtml (resolveFontCSS v.font fetch) html))
        (chunksOf (min v.pages.length (envConcurrencyLimit isVercel)) v.pages) with
    | error env =>
      rw [hrun] at hbody
      exact HandlerBody.noConfusion hbody
    | ok bufs' =>
      rw [hrun] at hbody
      have hbody' : HandlerBody.pdf ("attachment; filename=\x22" ++ v.filename ++ "\x22") bufs'
          = HandlerBody.pdf cd bufs := hbody
      injection hbody' with h1 h2
      rw [← h1, hdefault]
      rfl

/-- Witness for C10: a one-page request without `filename` renders
successfully and the attachment header carries the default name. -/
theorem filename_defaulted_witness :
    (postGeneratePdf true true (.failed "x") (fun _ => Except.ok (0 : Nat))
        ⟨["<p>a</p>"], none, none, none⟩).body
      = .pdf "attachment; filename=\x22document.pdf\x22" [0] := by
  have hv : validatePdfRequest ⟨["<p>a</p>"], none, none, none⟩
      = .ok ⟨["<p>a</p>"], "document.pdf", none, none⟩ := rfl
  have h := filename_defaulted ⟨["<p>a</p>"], none, none, none⟩
    ⟨["<p>a</p>"], "document.pdf", none, none⟩ hv
  have hbody : (postGeneratePdf true true (.failed "x") (fun _ => Except.ok (0 : Nat))
      ⟨["<p>a</p>"], none, none, none⟩).body
      = .pdf ("attachment; filename=\x22" ++ "document.pdf" ++ "\x22") [0] := rfl
  have hcd := (h.2 rfl).2 Nat true (.failed "x") (fun _ => Except.ok (0 : Nat))
    ("attachment; filename=\x22" ++ "document.pdf" ++ "\x22") [0] hbody
  rw [hbody, hcd]

end Html2Pdf
